import Mathlib

/-!
Verification of the memory-location-range relation engine of the TSAR
(SAPFOR) source-to-source parallelizing compiler, embedded from
`lib/Analysis/Memory/MemoryLocationRange.cpp`.

The data model (`Dimension`, `MemoryLocationRange`) lives in a header that
is not part of the analysed sources; it is modelled from the specification
(spec.md, section 3).  The integer linear solver invoked through
`bcl/Equation.h` is an external library; its contract (a Bezout-based
parametric solution of `K1*x - K2*y = c` with positive slopes) is modelled
from the specification as well.  Everything else is translated directly
from the C++ source.
-/

namespace TsarMLR

/-- Modelled from the spec: a single-axis affine index descriptor
(spec.md section 3); the `Dimension` struct of the repository's
`MemoryLocationRange.h` header, which is not among the analysed
sources.  It represents the index set
`\x7bStart + k*Step : k = 0..TripCount-1\x7d`. -/
structure Dimension where
  Start : Int
  Step : Int
  TripCount : Int
  DimSize : Int
deriving DecidableEq, Repr, Inhabited

/-- Modelled from the spec: the location kinds used by the engine
(spec.md section 3). -/
inductive LocKind where
  | DEFAULT
  | COLLAPSED
  | NON_COLLAPSABLE
deriving DecidableEq, Repr, Inhabited

/-- Modelled from the spec: a whole-access descriptor (spec.md section 3);
the `MemoryLocationRange` struct of the missing header.  `Ptr` is the
opaque base-object identity (`none` models a null pointer); a `DEFAULT`
location is the flat byte interval `[LowerBound, UpperBound)`; a
`COLLAPSED` location is described by `DimList`. -/
structure MemoryLocationRange where
  Ptr : Option Nat
  Kind : LocKind
  LowerBound : Option Int
  UpperBound : Option Int
  DimList : List Dimension
deriving DecidableEq, Repr, Inhabited

/-- The default-constructed `MemoryLocationRange()`: the "imprecise"
sentinel returned by the engine (null pointer, no bounds). -/
def imprecise : MemoryLocationRange :=
  { Ptr := none, Kind := LocKind.DEFAULT, LowerBound := none,
    UpperBound := none, DimList := [] }

/-- The index set of a `Dimension`: membership of integer index `i`. -/
def inDim (d : Dimension) (i : Int) : Prop :=
  ∃ k : Int, 0 ≤ k ∧ k < d.TripCount ∧ i = d.Start + d.Step * k

/-- The byte set of a fully bounded flat location `[l, u)`. -/
def inByteRange (l u i : Int) : Prop := l ≤ i ∧ i < u

instance (l u i : Int) : Decidable (inByteRange l u i) :=
  inferInstanceAs (Decidable (l ≤ i ∧ i < u))

/-- The function `difference` (MemoryLocationRange.cpp lines 37-69): the bounded
complement generator.  Computes the fragments of dimension `D` left over
after removing sub-range `I`; returns `none` when the number of center
fragments `I.Step / D.Step - 1` exceeds `Threshold` (the C++ returns
`false` and leaves partial results in `Res`; the driver discards them,
so only the success payload is modelled).  Fragments are appended in
source order: left piece, right piece, then center pieces. -/
def difference (D I : Dimension) (Threshold : Nat) : Option (List Dimension) :=
  let left : List Dimension :=
    if D.Start < I.Start then
      [⟨D.Start, D.Step, (I.Start - D.Start).tdiv D.Step, D.DimSize⟩]
    else []
  let DEnd := D.Start + D.Step * (D.TripCount - 1)
  let IEnd := I.Start + I.Step * (I.TripCount - 1)
  let right : List Dimension :=
    if DEnd > IEnd then
      [⟨IEnd + D.Step, D.Step, (DEnd - IEnd).tdiv D.Step, D.DimSize⟩]
    else []
  if 1 < I.TripCount then
    let RepeatNumber := I.Step.tdiv D.Step - 1
    if (Threshold : Int) < RepeatNumber then none
    else
      let centers := (List.range RepeatNumber.toNat).map fun J =>
        (⟨I.Start + D.Step * ((J : Int) + 1), D.Step, I.TripCount - 1,
          D.DimSize⟩ : Dimension)
      some (left ++ right ++ centers)
  else some (left ++ right)

/-- Exact integer floor division by a positive divisor (the intended
meaning of `std::floor((a) / double(b))` at lines 274 and 277). -/
def floorDiv (a b : Int) : Int := a / b

/-- Exact integer ceiling division by a positive divisor (the intended
meaning of `std::ceil((a) / double(b))` at lines 273 and 276). -/
def ceilDiv (a b : Int) : Int := -((-a) / b)

/-- Fuel-bounded base-2 logarithm: `log2Fuel f n` is the floor of
`log2 n` whenever `n < 2 ^ f` (structural recursion so that the kernel
can evaluate it). -/
def log2Fuel : Nat → Nat → Nat
  | 0, _ => 0
  | f + 1, n => if 2 ≤ n then log2Fuel f (n / 2) + 1 else 0

/-- The IEEE-754 binary64 value of an integer: round to 53 significant
bits, ties to even (the implicit int-to-`double` conversions feeding the
divisions at MemoryLocationRange.cpp lines 273-277).  Exact for
magnitudes up to `2^53`; overflow to infinity is not modelled, which is
faithful for every magnitude below `2^971` and in particular for all
64-bit values. -/
def fpOfInt (a : Int) : Int :=
  if a.natAbs ≤ 2 ^ 53 then a
  else
    let n := a.natAbs
    let e := log2Fuel 300 n - 52
    let m0 := n / 2 ^ e
    let r := n % 2 ^ e
    let half := 2 ^ (e - 1)
    let m := if half < r ∨ (r = half ∧ m0 % 2 = 1) then m0 + 1 else m0
    a.sign * (m * 2 ^ e : Nat)

/-- The binary64 quotient of two already-representable integers `a / b`
(`b > 0`, as the code asserts for the slopes `B` and `D`), returned as a
signed significand/exponent pair `(m, e)` with value `m * 2 ^ e`:
round to nearest, ties to even.  Faithful for `|a|, b < 2 ^ 63`
(no overflow or subnormals in that range). -/
def fpDivMantExp (a b : Int) : Int × Int :=
  if a = 0 ∨ b ≤ 0 then (0, 0)
  else
    let n := a.natAbs
    let d := b.toNat
    let w := n * 2 ^ 200 / d
    let e : Int := (log2Fuel 300 w : Int) - 200 - 52
    let num := if 0 ≤ e then n else n * 2 ^ (-e).toNat
    let den := if 0 ≤ e then d * 2 ^ e.toNat else d
    let m0 := num / den
    let r2 := 2 * (num % den)
    let m := if den < r2 ∨ (r2 = den ∧ m0 % 2 = 1) then m0 + 1 else m0
    (a.sign * m, e)

/-- The value `std::ceil((ValueT a) / double(b))` as the code computes it at
MemoryLocationRange.cpp lines 273 and 276: both operands pass through
binary64, the quotient is rounded to nearest, and the ceiling of the
rounded value is taken (exact, as `std::ceil` is). -/
def fpCeilDiv (a b : Int) : Int :=
  let p := fpDivMantExp (fpOfInt a) (fpOfInt b)
  if 0 ≤ p.2 then p.1 * 2 ^ p.2.toNat
  else ceilDiv p.1 (2 ^ (-p.2).toNat)

/-- The value `std::floor((ValueT a) / double(b))` as the code computes it at
MemoryLocationRange.cpp lines 274 and 277. -/
def fpFloorDiv (a b : Int) : Int :=
  let p := fpDivMantExp (fpOfInt a) (fpOfInt b)
  if 0 ≤ p.2 then p.1 * 2 ^ p.2.toNat
  else floorDiv p.1 (2 ^ (-p.2).toNat)

/-- Fuel-based extended Euclidean algorithm: `egcdFuel f a b` returns
`(g, x, y)` with `g = gcd a b` and `x*a + y*b = g` whenever `a ≤ f`. -/
def egcdFuel : Nat → Nat → Nat → Nat × Int × Int
  | 0, _, b => (b, 0, 1)
  | _ + 1, 0, b => (b, 0, 1)
  | f + 1, a + 1, b =>
    let t := egcdFuel f (b % (a + 1)) (a + 1)
    (t.1, t.2.2 - (b / (a + 1) : Nat) * t.2.1, t.2.1)

/-- Extended Euclidean algorithm: `(egcd a b) = (g, x, y)` with
`g = gcd a b` and `x*a + y*b = g`. -/
def egcd (a b : Nat) : Nat × Int × Int := egcdFuel a a b

/-- Modelled from the spec: the Bezout-based exact integer linear solver
reached through `bcl/Equation.h` (an external library, not among the
analysed sources; spec.md section 4.3).  For `K1*x - K2*y = c` with
`K1, K2 > 0` it reports unsolvability when `gcd K1 K2` does not divide
`c`, and otherwise yields the parametric solution line
`x = A + B*t, y = C + D*t` with `B = K2/g > 0` and `D = K1/g > 0`,
the particular point coming from the extended Euclidean algorithm. -/
def solveLine (K1 K2 c : Int) : Option (Int × Int × Int × Int) :=
  let e := egcd K1.toNat K2.toNat
  let g : Int := (e.1 : Int)
  if c % g ≠ 0 then none
  else
    let q := c / g
    some (e.2.1 * q, K2 / g, -e.2.2 * q, K1 / g)

/-- One axis of the collapsed intersection
(MemoryLocationRange.cpp lines 243-296, `DimSize` check excluded —
the driver performs it first): extent pre-check, equation solve,
parameter-window clamp, and construction of the intersection dimension.
Returns `none` exactly when the code sets `Intersected = false`.
The window bounds are computed as the code computes them, through
binary64 `double` arithmetic (`std::ceil`/`std::floor` at lines
273-277, modelled by `fpCeilDiv`/`fpFloorDiv`); the exact integer
window the spec prescribes instead is kept separately in
`windowOfLine` for comparison. -/
def intersectDim (L R : Dimension) : Option Dimension :=
  let LeftEnd := L.Start + L.Step * (L.TripCount - 1)
  let RightEnd := R.Start + R.Step * (R.TripCount - 1)
  if LeftEnd < R.Start ∨ RightEnd < L.Start then none
  else
    match solveLine L.Step R.Step (R.Start - L.Start) with
    | none => none
    | some (A, B, C, D) =>
      let TXmin := fpCeilDiv (0 - A) B
      let TXmax := fpFloorDiv (L.TripCount - 1 - A) B
      let TYmin := fpCeilDiv (0 - C) D
      let TYmax := fpFloorDiv (R.TripCount - 1 - C) D
      let Tmin := max TXmin TYmin
      let Tmax := min TXmax TYmax
      if Tmax < Tmin then none
      else
        some ⟨L.Step * A + L.Start + L.Step * B * Tmin, L.Step * B,
              Tmax - Tmin + 1, L.DimSize⟩

/-- The `NON_COLLAPSABLE` marker emitted on complement-budget overflow
(MemoryLocationRange.cpp lines 300-302 and 313-315): a copy of the
location with its dimension list cleared. -/
def nonCollapsable (Loc : MemoryLocationRange) : MemoryLocationRange :=
  { Loc with DimList := [], Kind := LocKind.NON_COLLAPSABLE }

/-- The fragments appended to one side's list for axis `I`
(MemoryLocationRange.cpp lines 297-309): on budget overflow a single
`NON_COLLAPSABLE` marker, otherwise one copy of the whole input per
complement piece with only the `I`-th dimension replaced. -/
def axisFrags (Loc : MemoryLocationRange) (I : Nat) (Side Int' : Dimension)
    (Threshold : Nat) : List MemoryLocationRange :=
  match difference Side Int' Threshold with
  | none => [nonCollapsable Loc]
  | some comps => comps.map fun comp =>
      { Loc with DimList := Loc.DimList.set I comp }

/-- Outcome of the per-axis loop of the intersection driver. -/
inductive AxisOutcome where
  | ok
  | disjoint
  | mismatch
deriving DecidableEq, Repr

/-- The per-axis loop of the intersection driver
(MemoryLocationRange.cpp lines 238-323), processing the zipped dimension
lists from axis `I` on.  Returns the outcome (`ok`, `disjoint` on an
axis with no common index, `mismatch` on a `DimSize` mismatch), the
intersection dimensions of the processed axes, and the fragments
appended to each side's list (fragments of axes processed before an
early exit are kept, mirroring the C++, which appends directly to the
caller's vectors). -/
def runAxes (LHS RHS : MemoryLocationRange) (Threshold : Nat)
    (useLC useRC : Bool) :
    Nat → List (Dimension × Dimension) →
    AxisOutcome × List Dimension × List MemoryLocationRange ×
      List MemoryLocationRange
  | _, [] => (AxisOutcome.ok, [], [], [])
  | I, (L, R) :: rest =>
    if L.DimSize ≠ R.DimSize then (AxisOutcome.mismatch, [], [], [])
    else
      match intersectDim L R with
      | none => (AxisOutcome.disjoint, [], [], [])
      | some dim =>
        let lcI := if useLC then axisFrags LHS I L dim Threshold else []
        let rcI := if useRC then axisFrags RHS I R dim Threshold else []
        let res := runAxes LHS RHS Threshold useLC useRC (I + 1) rest
        (res.1, dim :: res.2.1, lcI ++ res.2.2.1, rcI ++ res.2.2.2)

/-- Helper for the missing-bound disjointness test of `intersectScalar`
(MemoryLocationRange.cpp lines 174-178): both bounds present and the
first at most the second. -/
def optLeOpt (a b : Option Int) : Prop :=
  match a, b with
  | some x, some y => x ≤ y
  | _, _ => False

instance : ∀ a b : Option Int, Decidable (optLeOpt a b) := fun a b => by
  unfold optLeOpt
  match a, b with
  | some x, some y => exact inferInstanceAs (Decidable (x ≤ y))
  | some _, none => exact inferInstanceAs (Decidable False)
  | none, some _ => exact inferInstanceAs (Decidable False)
  | none, none => exact inferInstanceAs (Decidable False)

/-- The function `intersectScalar` (MemoryLocationRange.cpp lines 161-203): the flat
byte-interval intersector.  Result `none` models `llvm::None`
("disjoint"); fragments are returned instead of being appended to the
caller's vectors. -/
def intersectScalar (LHS RHS : MemoryLocationRange) (useLC useRC : Bool) :
    Option MemoryLocationRange × List MemoryLocationRange ×
      List MemoryLocationRange :=
  if LHS.Ptr ≠ RHS.Ptr then (none, [], [])
  else
    match LHS.LowerBound, LHS.UpperBound, RHS.LowerBound, RHS.UpperBound with
    | some ll, some lu, some rl, some ru =>
      if rl < lu ∧ ll < ru then
        let il := max ll rl
        let iu := min lu ru
        let Int' := { LHS with LowerBound := some il, UpperBound := some iu }
        let lc := (if useLC ∧ ll < il then
            [{ LHS with UpperBound := some il }] else []) ++
          (if useLC ∧ iu < lu then
            [{ LHS with LowerBound := some iu }] else [])
        let rc := (if useRC ∧ rl < il then
            [{ RHS with UpperBound := some il }] else []) ++
          (if useRC ∧ iu < ru then
            [{ RHS with LowerBound := some iu }] else [])
        (some Int', lc, rc)
      else (none, [], [])
    | _, _, _, _ =>
      if optLeOpt LHS.UpperBound RHS.LowerBound ∨
         optLeOpt RHS.UpperBound LHS.LowerBound then
        (none, [], [])
      else (some imprecise, [], [])

/-- Suffix byte sizes per axis (MemoryLocationRange.cpp lines 113-123):
`SizesInBytes[I] = DimList[I].DimSize * SizesInBytes[I+1]`, with the
element size as the final entry. -/
def suffixSizes : List Dimension → Int → List Int
  | [], e => [e]
  | d :: ds, e =>
    let rest := suffixSizes ds e
    (d.DimSize * rest.headI) :: rest

/-- Per-axis index recovery (MemoryLocationRange.cpp lines 124-131):
for each axis with suffix sizes `s0` (this axis) and `s1` (next),
the index of byte offset `b` is `(b % s0) / s1` when `s0 > 0` and
`b / s1` otherwise. -/
def recoverIdx : List Int → Int → List Int
  | s0 :: s1 :: rest, b =>
    (if 0 < s0 then (b % s0) / s1 else b / s1) :: recoverIdx (s1 :: rest) b
  | _, _ => []

/-- Dimension construction on delinearization success
(MemoryLocationRange.cpp lines 137-144 and 149-156):
`\x7bStart := LowerIdx, Step := 1, TripCount := UpperIdx - LowerIdx + 1,
DimSize := source DimSize\x7d` per axis. -/
def buildDims : List Int → List Int → List Dimension → List Dimension
  | l :: ls, u :: us, d :: ds => ⟨l, 1, u - l + 1, d.DimSize⟩ :: buildDims ls us ds
  | _, _, _ => []

/-- The function `delinearize` (MemoryLocationRange.cpp lines 97-159): attempts to
convert the flat `DEFAULT` location `What` into a `COLLAPSED` location
shaped like `From`; returns the updated `What` (the C++ mutates it in
place), unchanged on any failure. -/
def delinearize (From What : MemoryLocationRange) : MemoryLocationRange :=
  if What.Kind ≠ LocKind.DEFAULT ∨ From.Kind ≠ LocKind.COLLAPSED then What
  else
    match What.LowerBound, What.UpperBound with
    | some Lower, some Upper =>
      if Upper ≤ Lower then What
      else
        let DimN := From.DimList.length
        if DimN = 0 then What
        else
          let ElemSize := From.UpperBound.getD 0
          if Lower % ElemSize ≠ 0 ∨ Upper % ElemSize ≠ 0 then What
          else
            let sizes := suffixSizes From.DimList ElemSize
            let low := recoverIdx sizes Lower
            let up := recoverIdx sizes (Upper - 1)
            let success : MemoryLocationRange :=
              { What with Kind := LocKind.COLLAPSED,
                          DimList := buildDims low up From.DimList }
            if low.getD (DimN - 1) 0 = 0 ∧
               up.getD (DimN - 1) 0 + 1 =
                 (From.DimList.getD (DimN - 1) default).DimSize then
              if ∀ i < DimN - 1, 1 ≤ i →
                  low.getD i 0 = 0 ∧ up.getD i 0 + 1 =
                    (From.DimList.getD i default).DimSize then
                success
              else What
            else
              if ∀ i < DimN - 1, low.getD i 0 = up.getD i 0 then
                success
              else What
    | _, _ => What

/-- The driver `MemoryLocationRangeEquation::intersect`
(MemoryLocationRange.cpp lines 206-328): the affine intersection driver.
The first component models the return value (`none` = `llvm::None`,
`some imprecise` = the default-constructed sentinel); the second and
third are the fragments appended to `*LC` and `*RC` (`useLC`/`useRC`
model the nullness of those pointers). -/
def intersect (LHS0 RHS0 : MemoryLocationRange) (useLC useRC : Bool)
    (Threshold : Nat) :
    Option MemoryLocationRange × List MemoryLocationRange ×
      List MemoryLocationRange :=
  if LHS0.Ptr ≠ RHS0.Ptr then (none, [], [])
  else
    let LHS := if LHS0.Kind = LocKind.DEFAULT ∧ RHS0.Kind = LocKind.COLLAPSED
      then delinearize RHS0 LHS0 else LHS0
    let RHS := if RHS0.Kind = LocKind.DEFAULT ∧ LHS0.Kind = LocKind.COLLAPSED
      then delinearize LHS0 RHS0 else RHS0
    if LHS.Kind ≠ LocKind.COLLAPSED ∧ RHS.Kind ≠ LocKind.COLLAPSED then
      intersectScalar LHS RHS useLC useRC
    else if LHS.Kind ≠ LocKind.COLLAPSED ∨ RHS.Kind ≠ LocKind.COLLAPSED then
      (some imprecise, [], [])
    else if LHS.DimList.length ≠ RHS.DimList.length then
      (some imprecise, [], [])
    else if LHS.LowerBound = RHS.LowerBound ∧
            LHS.UpperBound = RHS.UpperBound ∧ LHS.DimList = RHS.DimList then
      (some LHS, [], [])
    else
      let res := runAxes LHS RHS Threshold useLC useRC 0
        (LHS.DimList.zip RHS.DimList)
      match res.1 with
      | AxisOutcome.ok => (some { LHS with DimList := res.2.1 }, res.2.2.1, res.2.2.2)
      | AxisOutcome.disjoint => (none, res.2.2.1, res.2.2.2)
      | AxisOutcome.mismatch => (some imprecise, res.2.2.1, res.2.2.2)



/-- Index coverage of a one-dimensional location: its single dimension
covers the index. -/
def covers1D (loc : MemoryLocationRange) (i : Int) : Prop :=
  ∃ d, loc.DimList = [d] ∧ inDim d i

/-- Index coverage of a list of one-dimensional locations. -/
def listCovers (ls : List MemoryLocationRange) (i : Int) : Prop :=
  ∃ loc ∈ ls, covers1D loc i

/-- Multi-dimensional index coverage: the location's dimensions cover the
index vector axis by axis. -/
def coversND (loc : MemoryLocationRange) (idx : List Int) : Prop :=
  List.Forall₂ inDim loc.DimList idx

/-- The LHS of the spec's strided example (C1). -/
def stridedLHS : MemoryLocationRange :=
  ⟨some 1, LocKind.COLLAPSED, some 0, some 4, [⟨0, 2, 5, 10⟩]⟩

/-- The RHS of the spec's strided example (C1). -/
def stridedRHS : MemoryLocationRange :=
  ⟨some 1, LocKind.COLLAPSED, some 0, some 4, [⟨0, 1, 10, 10⟩]⟩


/-- Inputs for the threshold-overflow run (C7): stride ratio 100 against
threshold 3. -/
def thrLHS : MemoryLocationRange :=
  ⟨some 1, LocKind.COLLAPSED, some 0, some 4, [⟨0, 1, 201, 1000⟩]⟩

/-- Right-hand input for the threshold-overflow run (C7). -/
def thrRHS : MemoryLocationRange :=
  ⟨some 1, LocKind.COLLAPSED, some 0, some 4, [⟨0, 100, 3, 1000⟩]⟩

/-- Two-dimensional inputs whose first axis intersects partially and whose
second axis is disjoint (C9). -/
def lateLHS : MemoryLocationRange :=
  ⟨some 1, LocKind.COLLAPSED, some 0, some 4, [⟨0, 1, 2, 10⟩, ⟨0, 1, 1, 10⟩]⟩

/-- Right-hand input disjoint from `lateLHS` on the second axis (C9). -/
def lateRHS : MemoryLocationRange :=
  ⟨some 1, LocKind.COLLAPSED, some 0, some 4, [⟨1, 1, 2, 10⟩, ⟨5, 1, 1, 10⟩]⟩

/-- Right-hand input with a `DimSize` mismatch on the second axis (C9). -/
def lateRHSb : MemoryLocationRange :=
  ⟨some 1, LocKind.COLLAPSED, some 0, some 4, [⟨1, 1, 2, 10⟩, ⟨0, 1, 1, 20⟩]⟩

set_option maxRecDepth 4000 in
/-- C1: on the spec's strided example the intersection and the left list
match the claim (`Start=0, Step=2, TripCount=5`, `LC` empty), but the
right fragment list covers index 2 (an even index inside the
intersection) and fails to cover index 5, so it does not cover the odd
set `1,3,5,7,9` the claim states: the center fragment at
MemoryLocationRange.cpp line 63 takes `D.Step` (here 1) instead of the
sub-range's stride `I.Step` (here 2), contradicting the documented
purpose of `difference` (a complement of `I` inside `D`). -/
theorem C1_strided_example_center_step :
    (intersect stridedLHS stridedRHS true true 10).1 = some stridedLHS ∧
    (intersect stridedLHS stridedRHS true true 10).2.1 = [] ∧
    (intersect stridedLHS stridedRHS true true 10).2.2 =
      [{ stridedRHS with DimList := [⟨9, 1, 1, 10⟩] },
       { stridedRHS with DimList := [⟨1, 1, 4, 10⟩] }] ∧
    listCovers (intersect stridedLHS stridedRHS true true 10).2.2 2 ∧
    ¬ listCovers (intersect stridedLHS stridedRHS true true 10).2.2 5 := by
  have h : (intersect stridedLHS stridedRHS true true 10).2.2 =
      [{ stridedRHS with DimList := [⟨9, 1, 1, 10⟩] },
       { stridedRHS with DimList := [⟨1, 1, 4, 10⟩] }] := by decide
  refine ⟨by decide, by decide, h, ?_, ?_⟩
  · rw [h]
    refine ⟨{ stridedRHS with DimList := [⟨1, 1, 4, 10⟩] }, by simp,
      ⟨1, 1, 4, 10⟩, rfl, 1, by decide, by decide, by decide⟩
  · rw [h]
    rintro ⟨loc, hmem, d, hd, k, hk0, hk1, hk2⟩
    simp only [List.mem_cons, List.not_mem_nil, or_false] at hmem
    rcases hmem with rfl | rfl
    · have hd9 : ([(⟨9, 1, 1, 10⟩ : Dimension)] : List Dimension) = [d] := hd
      injection hd9 with h9 _
      subst h9
      have h1 : k < (1 : Int) := hk1
      have h2 : (5 : Int) = 9 + 1 * k := hk2
      omega
    · have hd1 : ([(⟨1, 1, 4, 10⟩ : Dimension)] : List Dimension) = [d] := hd
      injection hd1 with h4 _
      subst h4
      have h1 : k < (4 : Int) := hk1
      have h2 : (5 : Int) = 1 + 1 * k := hk2
      omega

/-- C5: self-intersection of a `COLLAPSED` location with a non-null
pointer takes the fast path (MemoryLocationRange.cpp lines 233-235) and
returns the location unchanged with both fragment lists untouched. -/
theorem C5_self_intersection (A : MemoryLocationRange) (p : Nat)
    (hK : A.Kind = LocKind.COLLAPSED) (_hP : A.Ptr = some p) (Th : Nat) :
    intersect A A true true Th = (some A, [], []) := by
  unfold intersect
  simp [hK]

/-- C5 witness at a concrete collapsed location. -/
theorem C5_self_intersection_witness :
    intersect stridedLHS stridedLHS true true 10 = (some stridedLHS, [], []) :=
  C5_self_intersection stridedLHS 1 rfl rfl 10

set_option maxRecDepth 4000 in
/-- C7: when the center-fragment count `I.Step / D.Step - 1` of a
sub-range with more than one trip exceeds the threshold, the complement
generator signals overflow (`none`) instead of emitting fragments, and
the driver's per-axis fragment step then yields exactly one
`NON_COLLAPSABLE` fragment with an empty dimension list; a full driver
run on a stride ratio of 100 against threshold 3 shows the same on the
left fragment list. -/
theorem C7_threshold_overflow (D I : Dimension) (Th : Nat)
    (Loc : MemoryLocationRange) (idx : Nat)
    (h1 : 1 < I.TripCount) (h2 : (Th : Int) < I.Step.tdiv D.Step - 1) :
    difference D I Th = none ∧
    axisFrags Loc idx D I Th = [nonCollapsable Loc] ∧
    (nonCollapsable Loc).Kind = LocKind.NON_COLLAPSABLE ∧
    (nonCollapsable Loc).DimList = [] ∧
    (intersect thrLHS thrRHS true true 3).2.1 = [nonCollapsable thrLHS] := by
  have hdiff : difference D I Th = none := by
    unfold difference
    simp only [if_pos h1, if_pos h2]
  refine ⟨hdiff, ?_, rfl, rfl, by decide⟩
  unfold axisFrags
  rw [hdiff]

/-- C7 witness at the concrete overflow input. -/
theorem C7_threshold_overflow_witness :
    (1 : Int) < (⟨0, 100, 3, 1000⟩ : Dimension).TripCount ∧
    ((3 : Nat) : Int) <
      (⟨0, 100, 3, 1000⟩ : Dimension).Step.tdiv
        (⟨0, 1, 201, 1000⟩ : Dimension).Step - 1 ∧
    difference ⟨0, 1, 201, 1000⟩ ⟨0, 100, 3, 1000⟩ 3 = none :=
  ⟨by decide, by decide,
    (C7_threshold_overflow ⟨0, 1, 201, 1000⟩ ⟨0, 100, 3, 1000⟩ 3 thrLHS 0
      (by decide) (by decide)).1⟩

set_option maxRecDepth 4000 in
/-- C9: the disjoint and imprecise outcomes of the collapsed path are not
atomic with respect to the fragment lists: a pair disjoint on the second
axis returns the disjoint signal with both fragment lists already
populated from the first axis, and a pair with a `DimSize` mismatch on
the second axis returns the imprecise sentinel likewise. -/
theorem C9_fragments_survive_early_exit :
    ((intersect lateLHS lateRHS true true 10).1 = none ∧
     (intersect lateLHS lateRHS true true 10).2.1 ≠ [] ∧
     (intersect lateLHS lateRHS true true 10).2.2 ≠ []) ∧
    ((intersect lateLHS lateRHSb true true 10).1 = some imprecise ∧
     (intersect lateLHS lateRHSb true true 10).2.1 ≠ [] ∧
     (intersect lateLHS lateRHSb true true 10).2.2 ≠ []) := by
  decide


/-- Scalar example LHS: the flat interval `[0, 10)` (C6). -/
def scalarLHS : MemoryLocationRange :=
  ⟨some 1, LocKind.DEFAULT, some 0, some 10, []⟩

/-- Scalar example RHS: the flat interval `[5, 15)` (C6). -/
def scalarRHS : MemoryLocationRange :=
  ⟨some 1, LocKind.DEFAULT, some 5, some 15, []⟩

/-- Degenerate empty interval `[5, 5)` (C6 counterexample). -/
def degenerateLHS : MemoryLocationRange :=
  ⟨some 1, LocKind.DEFAULT, some 5, some 5, []⟩

/-- Wide interval `[0, 10)` paired with the degenerate one
(C6 counterexample). -/
def wideRHS : MemoryLocationRange :=
  ⟨some 1, LocKind.DEFAULT, some 0, some 10, []⟩

/-- C6 counterexample: the empty interval `[5, 5)` against `[0, 10)` has a
disjoint (indeed empty) byte set, yet the code's overlap test
(MemoryLocationRange.cpp line 181, `lu > rl and ll < ru`) accepts it and
an "exact" result is returned instead of the disjoint signal. -/
theorem C6_empty_interval_not_disjoint :
    (∀ i, ¬ (inByteRange 5 5 i ∧ inByteRange 0 10 i)) ∧
    (intersect degenerateLHS wideRHS true true 10).1 = some degenerateLHS := by
  refine ⟨?_, by decide⟩
  rintro i ⟨⟨h1, h2⟩, -⟩
  exact absurd (h1.trans_lt h2) (lt_irrefl 5)

/-- C6 (amended: both intervals nonempty, `Lower < Upper`): two fully
bounded `DEFAULT` locations on the same object intersect to
`[max(Lower), min(Upper))` when their byte sets overlap, each side
receiving the at-most-two leftover pieces (its own bounds with one edge
replaced by the intersection's edge), and produce the disjoint signal
when the byte sets are disjoint. -/
theorem C6_scalar_intersection (p : Nat) (A B : MemoryLocationRange)
    (ll lu rl ru : Int) (Th : Nat)
    (hPA : A.Ptr = some p) (hPB : B.Ptr = some p)
    (hKA : A.Kind = LocKind.DEFAULT) (hKB : B.Kind = LocKind.DEFAULT)
    (hA1 : A.LowerBound = some ll) (hA2 : A.UpperBound = some lu)
    (hB1 : B.LowerBound = some rl) (hB2 : B.UpperBound = some ru)
    (hne1 : ll < lu) (hne2 : rl < ru) :
    ((∃ i, inByteRange ll lu i ∧ inByteRange rl ru i) →
      intersect A B true true Th =
        (some { A with LowerBound := some (max ll rl),
                       UpperBound := some (min lu ru) },
         (if ll < max ll rl then [{ A with UpperBound := some (max ll rl) }]
          else []) ++
         (if min lu ru < lu then [{ A with LowerBound := some (min lu ru) }]
          else []),
         (if rl < max ll rl then [{ B with UpperBound := some (max ll rl) }]
          else []) ++
         (if min lu ru < ru then [{ B with LowerBound := some (min lu ru) }]
          else []))) ∧
    ((∀ i, ¬ (inByteRange ll lu i ∧ inByteRange rl ru i)) →
      intersect A B true true Th = (none, [], [])) := by
  have hscal : intersect A B true true Th = intersectScalar A B true true := by
    unfold intersect
    simp [hPA, hPB, hKA, hKB]
  constructor
  · rintro ⟨i, ⟨hi1, hi2⟩, hi3, hi4⟩
    rw [hscal]
    unfold intersectScalar
    rw [hA1, hA2, hB1, hB2]
    simp only [hPA, hPB, ne_eq, not_true_eq_false, if_neg, ite_false,
      reduceCtorEq]
    have hov : rl < lu ∧ ll < ru := ⟨hi3.trans_lt hi2, hi1.trans_lt hi4⟩
    rw [if_pos hov]
    simp only [true_and]
  · intro hdisj
    rw [hscal]
    unfold intersectScalar
    rw [hA1, hA2, hB1, hB2]
    simp only [hPA, hPB, ne_eq, not_true_eq_false, if_neg, ite_false,
      reduceCtorEq]
    have hnov : ¬ (rl < lu ∧ ll < ru) := by
      rintro ⟨h1, h2⟩
      exact hdisj (max ll rl)
        ⟨⟨le_max_left ll rl, max_lt hne1 h1⟩,
         ⟨le_max_right ll rl, max_lt h2 hne2⟩⟩
    rw [if_neg hnov]

/-- C6 witness: the spec's scalar example `[0,10)` against `[5,15)`. -/
theorem C6_scalar_intersection_witness :
    intersect scalarLHS scalarRHS true true 10 =
      (some { scalarLHS with LowerBound := some 5, UpperBound := some 10 },
       [{ scalarLHS with UpperBound := some 5 }],
       [{ scalarRHS with LowerBound := some 10 }]) := by
  have h := (C6_scalar_intersection 1 scalarLHS scalarRHS 0 10 5 15 10
    rfl rfl rfl rfl rfl rfl rfl rfl (by decide) (by decide)).1
    ⟨5, by decide, by decide⟩
  exact h.trans (by decide)


theorem egcdFuel_spec :
    ∀ (f a b : Nat), a ≤ f →
      (egcdFuel f a b).1 = Nat.gcd a b ∧
      ((egcdFuel f a b).2.1 * a + (egcdFuel f a b).2.2 * b : Int) =
        (Nat.gcd a b : Int) := by
  intro f
  induction f with
  | zero =>
    intro a b ha
    interval_cases a
    simp [egcdFuel, Nat.gcd_zero_left]
  | succ f ih =>
    intro a b ha
    match a with
    | 0 => simp [egcdFuel, Nat.gcd_zero_left]
    | a' + 1 =>
      have hr : b % (a' + 1) < a' + 1 := Nat.mod_lt _ (Nat.succ_pos a')
      have hrf : b % (a' + 1) ≤ f := by omega
      obtain ⟨ih1, ih2⟩ := ih (b % (a' + 1)) (a' + 1) hrf
      have hgcd : Nat.gcd (a' + 1) b = Nat.gcd (b % (a' + 1)) (a' + 1) :=
        Nat.gcd_rec _ _
      constructor
      · show (egcdFuel f (b % (a' + 1)) (a' + 1)).1 = _
        rw [ih1, hgcd]
      · show ((egcdFuel f (b % (a' + 1)) (a' + 1)).2.2 -
            ((b / (a' + 1) : Nat) : Int) *
              (egcdFuel f (b % (a' + 1)) (a' + 1)).2.1) * ((a' + 1 : Nat) : Int) +
            (egcdFuel f (b % (a' + 1)) (a' + 1)).2.1 * (b : Int) =
            (Nat.gcd (a' + 1) b : Int)
        have hdm : ((b : Int)) =
            ((a' + 1 : Nat) : Int) * ((b / (a' + 1) : Nat) : Int) +
            ((b % (a' + 1) : Nat) : Int) := by
          have h := Nat.div_add_mod b (a' + 1)
          exact_mod_cast (by omega : b = (a' + 1) * (b / (a' + 1)) + b % (a' + 1))
        rw [hgcd]
        linear_combination ih2 +
          (egcdFuel f (b % (a' + 1)) (a' + 1)).2.1 * hdm

theorem egcd_spec (a b : Nat) :
    (egcd a b).1 = Nat.gcd a b ∧
    ((egcd a b).2.1 * a + (egcd a b).2.2 * b : Int) = (Nat.gcd a b : Int) :=
  egcdFuel_spec a a b le_rfl


theorem toNat_gcd_eq {K1 K2 : Int} (h1 : 0 < K1) (h2 : 0 < K2) :
    Nat.gcd K1.toNat K2.toNat = Int.gcd K1 K2 := by
  have e1 : K1.toNat = K1.natAbs := by omega
  have e2 : K2.toNat = K2.natAbs := by omega
  rw [e1, e2]
  rfl

theorem gcd_cast_of_pos {K1 K2 : Int} (h1 : 0 < K1) (h2 : 0 < K2) :
    (egcd K1.toNat K2.toNat).1 = Int.gcd K1 K2 :=
  ((egcd_spec K1.toNat K2.toNat).1).trans (toNat_gcd_eq h1 h2)

theorem solveLine_eq_none {K1 K2 c : Int} (h1 : 0 < K1) (h2 : 0 < K2) :
    solveLine K1 K2 c = none ↔ ¬ ((Int.gcd K1 K2 : Int) ∣ c) := by
  simp only [solveLine, gcd_cast_of_pos h1 h2]
  by_cases hd : (Int.gcd K1 K2 : Int) ∣ c
  · rw [if_neg (by simp [Int.emod_eq_zero_of_dvd hd])]
    simp [hd]
  · rw [if_pos (by simpa using fun h => hd (Int.dvd_of_emod_eq_zero h))]
    simp [hd]

theorem solveLine_some_facts {K1 K2 c A B C D : Int} (h1 : 0 < K1)
    (h2 : 0 < K2) (h : solveLine K1 K2 c = some (A, B, C, D)) :
    K1 * A - K2 * C = c ∧ 0 < B ∧ 0 < D ∧ K1 * B = K2 * D ∧
    Int.gcd B D = 1 ∧
    (Int.gcd K1 K2 : Int) * B = K2 ∧ (Int.gcd K1 K2 : Int) * D = K1 := by
  have hgn : 0 < Int.gcd K1 K2 := Int.gcd_pos_iff.mpr (Or.inl h1.ne')
  have hg : 0 < (Int.gcd K1 K2 : Int) := by exact_mod_cast hgn
  simp only [solveLine, gcd_cast_of_pos h1 h2] at h
  by_cases hd : (Int.gcd K1 K2 : Int) ∣ c
  case neg =>
    rw [if_pos (by simpa using fun h0 => hd (Int.dvd_of_emod_eq_zero h0))] at h
    exact absurd h (by simp)
  case pos =>
    rw [if_neg (by simp [Int.emod_eq_zero_of_dvd hd])] at h
    simp only [Option.some.injEq, Prod.mk.injEq] at h
    obtain ⟨hA, hB, hC, hD⟩ := h
    have hKB : (Int.gcd K1 K2 : Int) * B = K2 := by
      rw [← hB]; exact Int.mul_ediv_cancel' Int.gcd_dvd_right
    have hKD : (Int.gcd K1 K2 : Int) * D = K1 := by
      rw [← hD]; exact Int.mul_ediv_cancel' Int.gcd_dvd_left
    have hBpos : 0 < B := by
      rcases lt_trichotomy B 0 with hx | hx | hx
      · nlinarith [mul_neg_of_pos_of_neg hg hx]
      · rw [hx, mul_zero] at hKB; omega
      · exact hx
    have hDpos : 0 < D := by
      rcases lt_trichotomy D 0 with hx | hx | hx
      · nlinarith [mul_neg_of_pos_of_neg hg hx]
      · rw [hx, mul_zero] at hKD; omega
      · exact hx
    have hbez : (egcd K1.toNat K2.toNat).2.1 * K1 +
        (egcd K1.toNat K2.toNat).2.2 * K2 = (Int.gcd K1 K2 : Int) := by
      have hb := (egcd_spec K1.toNat K2.toNat).2
      rw [Int.toNat_of_nonneg h1.le, Int.toNat_of_nonneg h2.le,
        toNat_gcd_eq h1 h2] at hb
      exact hb
    have hqg : c / (Int.gcd K1 K2 : Int) * (Int.gcd K1 K2 : Int) = c :=
      Int.ediv_mul_cancel hd
    refine ⟨?_, hBpos, hDpos, ?_, ?_, hKB, hKD⟩
    · rw [← hA, ← hC]
      linear_combination (c / (Int.gcd K1 K2 : Int)) * hbez + hqg
    · linear_combination D * hKB - B * hKD
    · have hcop := Int.gcd_div_gcd_div_gcd
        (show 0 < Int.gcd K2 K1 from Int.gcd_comm K1 K2 ▸ hgn)
      rw [Int.gcd_comm K2 K1] at hcop
      rw [← hB, ← hD]
      exact hcop

theorem solveLine_param {K1 K2 c A B C D : Int} (h1 : 0 < K1) (h2 : 0 < K2)
    (h : solveLine K1 K2 c = some (A, B, C, D)) (x y : Int) :
    K1 * x - K2 * y = c ↔ ∃ t : Int, x = A + B * t ∧ y = C + D * t := by
  obtain ⟨hline, hB, hD, hslope, hcop, hKB, hKD⟩ :=
    solveLine_some_facts h1 h2 h
  have hg : 0 < (Int.gcd K1 K2 : Int) := by
    exact_mod_cast Int.gcd_pos_iff.mpr (Or.inl h1.ne')
  constructor
  · intro hxy
    have hGBD : (Int.gcd K1 K2 : Int) * (D * (x - A)) =
        (Int.gcd K1 K2 : Int) * (B * (y - C)) := by
      linear_combination (x - A) * hKD - (y - C) * hKB + hxy - hline
    have hDB : D * (x - A) = B * (y - C) := mul_left_cancel₀ hg.ne' hGBD
    have hBdvd : B ∣ (x - A) := by
      have habc : B ∣ (x - A) * D := ⟨y - C, by linarith [hDB, mul_comm D (x - A)]⟩
      exact Int.dvd_of_dvd_mul_left_of_gcd_one habc hcop
    obtain ⟨t, ht⟩ := hBdvd
    refine ⟨t, by linarith [ht], ?_⟩
    have hcan : B * (y - C) = B * (D * t) := by
      rw [← hDB, ht]; ring
    have := mul_left_cancel₀ hB.ne' hcan
    linarith
  · rintro ⟨t, rfl, rfl⟩
    linear_combination hline + t * hslope

theorem le_floorDiv_iff {a b t : Int} (hb : 0 < b) :
    t ≤ floorDiv a b ↔ b * t ≤ a := by
  unfold floorDiv
  rw [Int.le_ediv_iff_mul_le hb, mul_comm]

theorem ceilDiv_le_iff {a b t : Int} (hb : 0 < b) :
    ceilDiv a b ≤ t ↔ a ≤ b * t := by
  unfold ceilDiv
  rw [neg_le, Int.le_ediv_iff_mul_le hb]
  constructor <;> intro h <;> nlinarith [mul_comm t b]

theorem inDim_bounds {d : Dimension} (hstep : 0 < d.Step) {i : Int}
    (h : inDim d i) :
    d.Start ≤ i ∧ i ≤ d.Start + d.Step * (d.TripCount - 1) := by
  obtain ⟨k, hk0, hk1, rfl⟩ := h
  constructor
  · nlinarith [mul_nonneg hstep.le hk0]
  · nlinarith [mul_le_mul_of_nonneg_left (by omega : k ≤ d.TripCount - 1) hstep.le]


/-- One-point 1-D collapsed location at the even index `2^53 + 2`
(C3 failing input). -/
def fpDisjLHS : MemoryLocationRange :=
  ⟨some 1, LocKind.COLLAPSED, some 0, some 4, [⟨2 ^ 53 + 2, 1, 1, 2 ^ 54⟩]⟩

/-- Odd-indexed 1-D collapsed location `1 + 2*k` for `k < 2^53`
(C3 failing input). -/
def fpDisjRHS : MemoryLocationRange :=
  ⟨some 1, LocKind.COLLAPSED, some 0, some 4, [⟨1, 2, 2 ^ 53, 2 ^ 54⟩]⟩

set_option maxRecDepth 8000 in
/-- C3: the disjointness reported by `intersect` is not sound on the
window arithmetic the code actually performs.  The one-point even
location `{2^53 + 2}` and the odd indices `1 + 2k, k < 2^53` share no
integer index, yet the driver returns the non-empty "intersection"
`{2^53 + 1}` (Start `2^53 + 1`, Step 2, TripCount 1) instead of the
disjoint signal: the solution line is `A = -(2^53+1), B = 2, C = 0,
D = 1`, the exact parameter window `[2^52 + 1, 2^52]` is empty, but the
conversion of `0 - A = 2^53 + 1` to `double` at
MemoryLocationRange.cpp line 273 rounds down to `2^53` (ties to even),
so the computed window is the non-empty `[2^52, 2^52]`.  All magnitudes
involved fit a signed 64-bit `ValueT`. -/
theorem C3_fp_fake_intersection :
    (∀ i : Int, ¬ (inDim ⟨2 ^ 53 + 2, 1, 1, 2 ^ 54⟩ i ∧
        inDim ⟨1, 2, 2 ^ 53, 2 ^ 54⟩ i)) ∧
    (intersect fpDisjLHS fpDisjRHS true true 10).1 =
      some { fpDisjLHS with DimList := [⟨2 ^ 53 + 1, 2, 1, 2 ^ 54⟩] } ∧
    (intersect fpDisjLHS fpDisjRHS true true 10).1 ≠ none := by
  refine ⟨?_, by decide, by decide⟩
  rintro i ⟨⟨k, hk0, hk1, hk2⟩, ⟨m, hm0, hm1, hm2⟩⟩
  have hk1' : k < (1 : Int) := hk1
  have hk2' : i = 2 ^ 53 + 2 + 1 * k := hk2
  have hm2' : i = 1 + 2 * m := hm2
  have hp : (2 : Int) ^ 53 = 9007199254740992 := by norm_num
  rw [hp] at hk2'
  omega


/-- Two-dimensional inputs whose left complement fragments from the two
axes overlap each other (C10). -/
def ovLHS : MemoryLocationRange :=
  ⟨some 1, LocKind.COLLAPSED, some 0, some 4, [⟨0, 1, 2, 10⟩, ⟨0, 1, 2, 10⟩]⟩

/-- Right-hand input for the overlapping-fragments run (C10). -/
def ovRHS : MemoryLocationRange :=
  ⟨some 1, LocKind.COLLAPSED, some 0, some 4, [⟨1, 1, 2, 10⟩, ⟨1, 1, 2, 10⟩]⟩

set_option maxRecDepth 4000 in
/-- C10 counterexample: on budget overflow the appended fragment has its
dimension list cleared (NON_COLLAPSABLE), so it is not a copy of the
input with only one axis replaced, contradicting the claim's "each
fragment" wording. -/
theorem C10_overflow_fragment_shape :
    ∃ frag, frag ∈ (intersect thrLHS thrRHS true true 3).2.1 ∧
      ∀ (J : Nat) (comp : Dimension),
        frag ≠ { thrLHS with DimList := thrLHS.DimList.set J comp } := by
  refine ⟨nonCollapsable thrLHS, by decide, ?_⟩
  intro J comp h
  have hlen := congrArg (fun loc => loc.DimList.length) h
  simp only [nonCollapsable, List.length_nil, List.length_set] at hlen
  exact absurd hlen.symm (by decide)

set_option maxRecDepth 8000 in
/-- C10 (amended: fragments produced within the complement budget): every
fragment the driver's per-axis loop appends to the left list is either
the NON_COLLAPSABLE overflow marker or a copy of the whole left input in
which only axis `J` is replaced by one of the complement pieces of that
axis, and every fragment appended to the right list is likewise either
the overflow marker or a copy of the whole right input with only axis
`J` replaced — all other axes keep the input's original dimensions; as a
consequence fragments of different axes may overlap, exhibited by a
concrete 2-D run whose two left fragments share the cell `(0, 0)`. -/
theorem C10_fragment_frame :
    (∀ (LHS RHS : MemoryLocationRange) (Th : Nat) (u v : Bool) (I : Nat)
      (pairs : List (Dimension × Dimension)) frag,
      frag ∈ (runAxes LHS RHS Th u v I pairs).2.2.1 →
      frag = nonCollapsable LHS ∨
      ∃ (J : Nat) (L R dim : Dimension) (comps : List Dimension)
        (comp : Dimension),
        I ≤ J ∧ pairs.get? (J - I) = some (L, R) ∧
        intersectDim L R = some dim ∧
        difference L dim Th = some comps ∧ comp ∈ comps ∧
        frag = { LHS with DimList := LHS.DimList.set J comp }) ∧
    (∀ (LHS RHS : MemoryLocationRange) (Th : Nat) (u v : Bool) (I : Nat)
      (pairs : List (Dimension × Dimension)) frag,
      frag ∈ (runAxes LHS RHS Th u v I pairs).2.2.2 →
      frag = nonCollapsable RHS ∨
      ∃ (J : Nat) (L R dim : Dimension) (comps : List Dimension)
        (comp : Dimension),
        I ≤ J ∧ pairs.get? (J - I) = some (L, R) ∧
        intersectDim L R = some dim ∧
        difference R dim Th = some comps ∧ comp ∈ comps ∧
        frag = { RHS with DimList := RHS.DimList.set J comp }) ∧
    ((intersect ovLHS ovRHS true true 9).2.1 =
      [{ ovLHS with DimList := [⟨0, 1, 1, 10⟩, ⟨0, 1, 2, 10⟩] },
       { ovLHS with DimList := [⟨0, 1, 2, 10⟩, ⟨0, 1, 1, 10⟩] }] ∧
     coversND { ovLHS with DimList := [⟨0, 1, 1, 10⟩, ⟨0, 1, 2, 10⟩] } [0, 0] ∧
     coversND { ovLHS with DimList := [⟨0, 1, 2, 10⟩, ⟨0, 1, 1, 10⟩] } [0, 0]) := by
  refine ⟨?_, ?_, ?_⟩
  · intro LHS RHS Th u v I pairs
    induction pairs generalizing I with
    | nil => intro frag hf; simp [runAxes] at hf
    | cons hd tl ih =>
      intro frag hf
      obtain ⟨L, R⟩ := hd
      simp only [runAxes] at hf
      by_cases hsz : L.DimSize ≠ R.DimSize
      · rw [if_pos hsz] at hf
        simp at hf
      · rw [if_neg hsz] at hf
        cases hd2 : intersectDim L R with
        | none => rw [hd2] at hf; simp at hf
        | some dim =>
          rw [hd2] at hf
          simp only [List.mem_append] at hf
          rcases hf with hf | hf
          · by_cases hu : u
            · rw [if_pos hu] at hf
              unfold axisFrags at hf
              cases hdf : difference L dim Th with
              | none =>
                rw [hdf] at hf
                simp only [List.mem_singleton] at hf
                exact Or.inl hf
              | some comps =>
                rw [hdf] at hf
                simp only [List.mem_map] at hf
                obtain ⟨comp, hcm, hfe⟩ := hf
                exact Or.inr ⟨I, L, R, dim, comps, comp, le_refl I,
                  by simp, hd2, hdf, hcm, hfe.symm⟩
            · rw [if_neg hu] at hf
              simp at hf
          · rcases ih (I + 1) frag hf with h | h
            · exact Or.inl h
            · obtain ⟨J, L', R', dim', comps, comp, hIJ, hget, hid, hdf,
                hcm, hfe⟩ := h
              refine Or.inr ⟨J, L', R', dim', comps, comp, by omega, ?_,
                hid, hdf, hcm, hfe⟩
              have hJI : J - I = (J - (I + 1)) + 1 := by omega
              rw [hJI]
              simpa using hget
  · intro LHS RHS Th u v I pairs
    induction pairs generalizing I with
    | nil => intro frag hf; simp [runAxes] at hf
    | cons hd tl ih =>
      intro frag hf
      obtain ⟨L, R⟩ := hd
      simp only [runAxes] at hf
      by_cases hsz : L.DimSize ≠ R.DimSize
      · rw [if_pos hsz] at hf
        simp at hf
      · rw [if_neg hsz] at hf
        cases hd2 : intersectDim L R with
        | none => rw [hd2] at hf; simp at hf
        | some dim =>
          rw [hd2] at hf
          simp only [List.mem_append] at hf
          rcases hf with hf | hf
          · by_cases hv : v
            · rw [if_pos hv] at hf
              unfold axisFrags at hf
              cases hdf : difference R dim Th with
              | none =>
                rw [hdf] at hf
                simp only [List.mem_singleton] at hf
                exact Or.inl hf
              | some comps =>
                rw [hdf] at hf
                simp only [List.mem_map] at hf
                obtain ⟨comp, hcm, hfe⟩ := hf
                exact Or.inr ⟨I, L, R, dim, comps, comp, le_refl I,
                  by simp, hd2, hdf, hcm, hfe.symm⟩
            · rw [if_neg hv] at hf
              simp at hf
          · rcases ih (I + 1) frag hf with h | h
            · exact Or.inl h
            · obtain ⟨J, L', R', dim', comps, comp, hIJ, hget, hid, hdf,
                hcm, hfe⟩ := h
              refine Or.inr ⟨J, L', R', dim', comps, comp, by omega, ?_,
                hid, hdf, hcm, hfe⟩
              have hJI : J - I = (J - (I + 1)) + 1 := by omega
              rw [hJI]
              simpa using hget
  · refine ⟨by decide, ?_, ?_⟩
    · refine List.Forall₂.cons ⟨0, by decide, by decide, by decide⟩ ?_
      exact List.Forall₂.cons ⟨0, by decide, by decide, by decide⟩
        List.Forall₂.nil
    · refine List.Forall₂.cons ⟨0, by decide, by decide, by decide⟩ ?_
      exact List.Forall₂.cons ⟨0, by decide, by decide, by decide⟩
        List.Forall₂.nil

set_option maxRecDepth 8000 in
/-- C10 witness: the amended shape statement applied to the first
fragment of each side's list in the concrete 2-D run. -/
theorem C10_fragment_frame_witness :
    ({ ovLHS with DimList := [⟨0, 1, 1, 10⟩, ⟨0, 1, 2, 10⟩] } =
        nonCollapsable ovLHS ∨
      ∃ (J : Nat) (L R dim : Dimension) (comps : List Dimension)
        (comp : Dimension),
        0 ≤ J ∧ ((ovLHS.DimList.zip ovRHS.DimList).get? (J - 0) = some (L, R)) ∧
        intersectDim L R = some dim ∧
        difference L dim 9 = some comps ∧ comp ∈ comps ∧
        { ovLHS with DimList := [⟨0, 1, 1, 10⟩, ⟨0, 1, 2, 10⟩] } =
          { ovLHS with DimList := ovLHS.DimList.set J comp }) ∧
    ({ ovRHS with DimList := [⟨2, 1, 1, 10⟩, ⟨1, 1, 2, 10⟩] } =
        nonCollapsable ovRHS ∨
      ∃ (J : Nat) (L R dim : Dimension) (comps : List Dimension)
        (comp : Dimension),
        0 ≤ J ∧ ((ovLHS.DimList.zip ovRHS.DimList).get? (J - 0) = some (L, R)) ∧
        intersectDim L R = some dim ∧
        difference R dim 9 = some comps ∧ comp ∈ comps ∧
        { ovRHS with DimList := [⟨2, 1, 1, 10⟩, ⟨1, 1, 2, 10⟩] } =
          { ovRHS with DimList := ovRHS.DimList.set J comp }) :=
  ⟨C10_fragment_frame.1 ovLHS ovRHS 9 true true 0
      (ovLHS.DimList.zip ovRHS.DimList)
      { ovLHS with DimList := [⟨0, 1, 1, 10⟩, ⟨0, 1, 2, 10⟩] } (by decide),
    C10_fragment_frame.2.1 ovLHS ovRHS 9 true true 0
      (ovLHS.DimList.zip ovRHS.DimList)
      { ovRHS with DimList := [⟨2, 1, 1, 10⟩, ⟨1, 1, 2, 10⟩] } (by decide)⟩


/-- The recovered per-axis indices of byte offset `Lower` against the
shape of `From` (spec.md section 4.2). -/
def delinLow (From : MemoryLocationRange) (Lower : Int) : List Int :=
  recoverIdx (suffixSizes From.DimList (From.UpperBound.getD 0)) Lower

/-- The recovered per-axis indices of byte offset `Upper - 1` against the
shape of `From` (spec.md section 4.2). -/
def delinUp (From : MemoryLocationRange) (Upper : Int) : List Int :=
  recoverIdx (suffixSizes From.DimList (From.UpperBound.getD 0)) (Upper - 1)

/-- Axis `i` is full-span on both recovered index vectors: index 0 at the
lower end and `DimSize - 1` at the upper end (spec.md section 4.2). -/
def axisFullSpan (From : MemoryLocationRange) (low up : List Int)
    (i : Nat) : Prop :=
  low.getD i 0 = 0 ∧
  up.getD i 0 + 1 = (From.DimList.getD i default).DimSize

/-- Shape (a) of the delinearization claim: the innermost axis and every
other non-outermost axis are full-span on both ends. -/
def claimShapeA (From : MemoryLocationRange) (low up : List Int) : Prop :=
  axisFullSpan From low up (From.DimList.length - 1) ∧
  ∀ i, 1 ≤ i → i < From.DimList.length - 1 → axisFullSpan From low up i

/-- Shape (b) of the delinearization claim: all axes but the innermost
have identical recovered index on both ends. -/
def claimShapeB (From : MemoryLocationRange) (low up : List Int) : Prop :=
  ∀ i, i < From.DimList.length - 1 → low.getD i 0 = up.getD i 0

instance (From : MemoryLocationRange) (low up : List Int) (i : Nat) :
    Decidable (axisFullSpan From low up i) :=
  inferInstanceAs (Decidable (_ ∧ _))

instance (From : MemoryLocationRange) (low up : List Int) :
    Decidable (claimShapeB From low up) :=
  inferInstanceAs
    (Decidable (∀ i, i < From.DimList.length - 1 → low.getD i 0 = up.getD i 0))

/-- Source shape for the C2 counterexample: a 2x2x2 array with element
size 1. -/
def delinFrom : MemoryLocationRange :=
  ⟨some 1, LocKind.COLLAPSED, some 0, some 1,
    [⟨0, 1, 2, 2⟩, ⟨0, 1, 2, 2⟩, ⟨0, 1, 2, 2⟩]⟩

/-- Target for the C2 counterexample: bytes `[2, 4)`, exactly the full
middle row `(0, 1, *)` of `delinFrom`. -/
def delinWhat : MemoryLocationRange :=
  ⟨some 1, LocKind.DEFAULT, some 2, some 4, []⟩

/-- C2 counterexample: for the byte range `[2, 4)` against a 2x2x2 shape
all preconditions hold and shape (b) holds (axes 0 and 1 recover
identical indices 0 and 1 on both ends), yet delinearization fails (the
target stays `DEFAULT`): the innermost axis is full-span, so the code
(MemoryLocationRange.cpp lines 132-136) insists on the middle axes being
full-span and never tests shape (b). -/
theorem C2_inner_full_span_shadows_row_shape :
    delinWhat.Kind = LocKind.DEFAULT ∧ delinFrom.Kind = LocKind.COLLAPSED ∧
    delinWhat.LowerBound = some 2 ∧ delinWhat.UpperBound = some 4 ∧
    (2 : Int) < 4 ∧ delinFrom.UpperBound = some 1 ∧
    (2 : Int) % 1 = 0 ∧ (4 : Int) % 1 = 0 ∧
    claimShapeB delinFrom (delinLow delinFrom 2) (delinUp delinFrom 4) ∧
    delinearize delinFrom delinWhat = delinWhat ∧
    (delinearize delinFrom delinWhat).Kind ≠ LocKind.COLLAPSED := by
  refine ⟨rfl, rfl, rfl, rfl, by decide, rfl, by decide, by decide, ?_,
    by decide, by decide⟩
  intro i hi
  match i, hi with
  | 0, _ => decide
  | 1, _ => decide

/-- C2 (amended: shape (b) applies only when the innermost axis is not
full-span on both ends): under the preconditions, delinearization
succeeds — producing the `COLLAPSED` target with per-axis
`Start/Step=1/TripCount/DimSize` dimensions — if and only if shape (a)
holds, or the innermost axis is not full-span and shape (b) holds; on
any other input it leaves the target unchanged. -/
theorem C2_delinearize_characterization
    (From What : MemoryLocationRange) (Lower Upper ElemSize : Int)
    (hW : What.Kind = LocKind.DEFAULT) (hF : From.Kind = LocKind.COLLAPSED)
    (hL : What.LowerBound = some Lower) (hU : What.UpperBound = some Upper)
    (hE : From.UpperBound = some ElemSize)
    (hLU : Lower < Upper) (hn : From.DimList.length ≠ 0)
    (hdvd1 : Lower % ElemSize = 0) (hdvd2 : Upper % ElemSize = 0) :
    (delinearize From What =
      { What with
        Kind := LocKind.COLLAPSED,
        DimList :=
          buildDims (delinLow From Lower) (delinUp From Upper) From.DimList } ↔
      (claimShapeA From (delinLow From Lower) (delinUp From Upper) ∨
       (¬ axisFullSpan From (delinLow From Lower) (delinUp From Upper)
          (From.DimList.length - 1) ∧
        claimShapeB From (delinLow From Lower) (delinUp From Upper)))) ∧
    (¬ (claimShapeA From (delinLow From Lower) (delinUp From Upper) ∨
        (¬ axisFullSpan From (delinLow From Lower) (delinUp From Upper)
           (From.DimList.length - 1) ∧
         claimShapeB From (delinLow From Lower) (delinUp From Upper))) →
      delinearize From What = What) := by
  have hWne : ∀ dl, What ≠
      { What with Kind := LocKind.COLLAPSED, DimList := dl } := by
    intro dl he
    have := congrArg MemoryLocationRange.Kind he
    rw [hW] at this
    exact LocKind.noConfusion this
  have hbody : delinearize From What =
      if axisFullSpan From (delinLow From Lower) (delinUp From Upper)
          (From.DimList.length - 1) then
        if ∀ i, i < From.DimList.length - 1 → 1 ≤ i →
            axisFullSpan From (delinLow From Lower) (delinUp From Upper) i
        then
          { What with
            Kind := LocKind.COLLAPSED,
            DimList :=
              buildDims (delinLow From Lower) (delinUp From Upper) From.DimList }
        else What
      else
        if claimShapeB From (delinLow From Lower) (delinUp From Upper)
        then
          { What with
            Kind := LocKind.COLLAPSED,
            DimList :=
              buildDims (delinLow From Lower) (delinUp From Upper) From.DimList }
        else What := by
    unfold delinearize
    simp only [hW, hF, hL, hU, hE, ne_eq, not_true_eq_false, or_self,
      if_false, reduceCtorEq, Option.getD_some, not_false_eq_true,
      ite_false, ite_eq_right_iff]
    rw [if_neg (by omega : ¬ Upper ≤ Lower)]
    rw [if_neg hn]
    rw [if_neg (by simp [hdvd1, hdvd2])]
    unfold delinLow delinUp axisFullSpan claimShapeB
    rw [hE]
    simp only [Option.getD_some, hL, hU]
  constructor
  · rw [hbody]
    split_ifs with h1 h2 h3
    · simp only [true_iff]
      exact Or.inl ⟨h1, fun i hi1 hi2 => h2 i hi2 hi1⟩
    · constructor
      · intro he
        exact absurd he (hWne _)
      · rintro (⟨ha1, ha2⟩ | ⟨hb1, hb2⟩)
        · exact absurd (fun i h2' h1' => ha2 i h1' h2') h2
        · exact absurd h1 hb1
    · simp only [true_iff]
      exact Or.inr ⟨h1, h3⟩
    · constructor
      · intro he
        exact absurd he (hWne _)
      · rintro (⟨ha1, ha2⟩ | ⟨hb1, hb2⟩)
        · exact absurd ha1 h1
        · exact absurd h3 (by simpa using hb2)
  · rw [hbody]
    intro hc
    split_ifs with h1 h2 h3
    · exact absurd (Or.inl ⟨h1, fun i hi1 hi2 => h2 i hi2 hi1⟩) hc
    · rfl
    · exact absurd (Or.inr ⟨h1, h3⟩) hc
    · rfl

/-- Source shape for the C2 witness: a one-axis array of two elements of
size 4. -/
def rowFrom : MemoryLocationRange :=
  ⟨some 1, LocKind.COLLAPSED, some 0, some 4, [⟨0, 1, 2, 2⟩]⟩

/-- Target for the C2 witness: bytes `[4, 8)`, the second element. -/
def rowWhat : MemoryLocationRange :=
  ⟨some 1, LocKind.DEFAULT, some 4, some 8, []⟩

/-- C2 witness: the single-element byte range `[4, 8)` delinearizes by
shape (b) (the innermost axis is not full-span). -/
theorem C2_delinearize_characterization_witness :
    delinearize rowFrom rowWhat =
      { rowWhat with
        Kind := LocKind.COLLAPSED,
        DimList :=
          buildDims (delinLow rowFrom 4) (delinUp rowFrom 8) rowFrom.DimList } :=
  (C2_delinearize_characterization rowFrom rowWhat 4 8 4
    rfl rfl rfl rfl rfl (by decide) (by decide) (by decide) (by decide)).1.mpr
    (Or.inr ⟨fun hfs => absurd hfs.1 (by decide),
      fun i hi => absurd (show i < 0 from hi) (Nat.not_lt_zero i)⟩)


/-- A `NON_COLLAPSABLE` location that carries flat bounds, exactly as
the engine's own overflow markers do (MemoryLocationRange.cpp lines
300-302 and 313-315 copy the location and clear only its dimension
list); such markers are fed back into later pairwise intersections
(C4). -/
def ncWithBounds : MemoryLocationRange :=
  ⟨some 1, LocKind.NON_COLLAPSABLE, some 0, some 4, []⟩

/-- A flat `DEFAULT` interval `[2, 6)` on the same base object (C4). -/
def dfSmall : MemoryLocationRange :=
  ⟨some 1, LocKind.DEFAULT, some 2, some 6, []⟩

/-- One-point 1-D collapsed location at index `2^53 + 1` (C4). -/
def fpAsymLHS : MemoryLocationRange :=
  ⟨some 1, LocKind.COLLAPSED, some 0, some 4, [⟨2 ^ 53 + 1, 1, 1, 2 ^ 54⟩]⟩

/-- Unit-stride 1-D collapsed location covering `[0, 2^53 + 1]` (C4). -/
def fpAsymRHS : MemoryLocationRange :=
  ⟨some 1, LocKind.COLLAPSED, some 0, some 4, [⟨0, 1, 2 ^ 53 + 2, 2 ^ 54⟩]⟩

set_option maxRecDepth 8000 in
/-- C4: `intersect` is not symmetric in its two location arguments, in
three independent ways, each exhibited on a concrete pair.
(a) An exact result is `Int(LHS)` (MemoryLocationRange.cpp line 237),
so its flat bounds come from whichever argument is on the left: the
delinearized pair `rowWhat`/`rowFrom` yields bounds `[4, 8]` one way
and `[0, 4]` the other (the fragment lists do swap here).
(b) The result `Kind` is copied from the left argument the same way: a
`NON_COLLAPSABLE` overflow marker carrying bounds against a flat
`DEFAULT` interval gives a `NON_COLLAPSABLE` result in one order and a
`DEFAULT` result in the other.
(c) The double-based window computation (lines 273-277) breaks the
symmetry of the computed dimensions themselves: swapping the one-point
location `{2^53 + 1}` with the interval `[0, 2^53 + 1]` changes the
reported intersection from the fake point `{2^53}` to the point
`{2^53 + 1}`; all magnitudes fit a signed 64-bit `ValueT`. -/
theorem C4_symmetry_violations :
    ((intersect rowWhat rowFrom true true 10).1 =
        some ⟨some 1, LocKind.COLLAPSED, some 4, some 8, [⟨1, 1, 1, 2⟩]⟩ ∧
     (intersect rowFrom rowWhat true true 10).1 =
        some ⟨some 1, LocKind.COLLAPSED, some 0, some 4, [⟨1, 1, 1, 2⟩]⟩ ∧
     (intersect rowWhat rowFrom true true 10).1 ≠
        (intersect rowFrom rowWhat true true 10).1 ∧
     (intersect rowWhat rowFrom true true 10).2.1 =
        (intersect rowFrom rowWhat true true 10).2.2 ∧
     (intersect rowWhat rowFrom true true 10).2.2 =
        (intersect rowFrom rowWhat true true 10).2.1) ∧
    ((intersect ncWithBounds dfSmall true true 10).1 =
        some ⟨some 1, LocKind.NON_COLLAPSABLE, some 2, some 4, []⟩ ∧
     (intersect dfSmall ncWithBounds true true 10).1 =
        some ⟨some 1, LocKind.DEFAULT, some 2, some 4, []⟩) ∧
    ((intersect fpAsymLHS fpAsymRHS true true 10).1 =
        some { fpAsymLHS with DimList := [⟨2 ^ 53, 1, 1, 2 ^ 54⟩] } ∧
     (intersect fpAsymRHS fpAsymLHS true true 10).1 =
        some { fpAsymRHS with DimList := [⟨2 ^ 53 + 1, 1, 1, 2 ^ 54⟩] } ∧
     (intersect fpAsymLHS fpAsymRHS true true 10).1 ≠
        (intersect fpAsymRHS fpAsymLHS true true 10).1) :=
  ⟨⟨by decide, by decide, by decide, by decide, by decide⟩,
    ⟨by decide, by decide⟩, ⟨by decide, by decide, by decide⟩⟩


/-- The combined parameter window `[Tmin, Tmax]` of one axis computed
with exact integer ceiling/floor division (the claim's formula), from
the solution line's intercepts `A`, `C`, slopes `B`, `D` and the window
upper ends `X2 = TripCount1 - 1`, `Y2 = TripCount2 - 1`
(MemoryLocationRange.cpp lines 273-279; the window lower ends are 0). -/
def windowOfLine (A B C D X2 Y2 : Int) : Int × Int :=
  (max (ceilDiv (0 - A) B) (ceilDiv (0 - C) D),
   min (floorDiv (X2 - A) B) (floorDiv (Y2 - C) D))

/-- The combined parameter window as the code computes it, through
`double` arithmetic (MemoryLocationRange.cpp lines 273-279). -/
def windowOfLineFP (A B C D X2 Y2 : Int) : Int × Int :=
  (max (fpCeilDiv (0 - A) B) (fpCeilDiv (0 - C) D),
   min (fpFloorDiv (X2 - A) B) (fpFloorDiv (Y2 - C) D))

set_option maxRecDepth 4000 in
/-- C8: the code's double-based window computation diverges from the
exact integer one at representable index magnitudes: with intercepts
`A = -(2^53+1)`, `C = 0`, slopes `B = D = 1` and both trip windows
`[0, 2^54]`, the exact `Tmin` is `2^53 + 1`, but the conversion of
`0 - A = 2^53 + 1` to `double` rounds down to `2^53` (ties to even),
so the code computes `Tmin = 2^53` and the windows differ; all values
involved fit in a signed 64-bit `ValueT`. -/
theorem C8_float_window_diverges :
    windowOfLine (-(2 ^ 53 + 1)) 1 0 1 (2 ^ 54) (2 ^ 54) =
      (2 ^ 53 + 1, 2 ^ 54) ∧
    windowOfLineFP (-(2 ^ 53 + 1)) 1 0 1 (2 ^ 54) (2 ^ 54) =
      (2 ^ 53, 2 ^ 54) ∧
    windowOfLineFP (-(2 ^ 53 + 1)) 1 0 1 (2 ^ 54) (2 ^ 54) ≠
      windowOfLine (-(2 ^ 53 + 1)) 1 0 1 (2 ^ 54) (2 ^ 54) ∧
    (0 : Int) < 1 ∧ (2 ^ 53 + 1 : Int) < 2 ^ 63 ∧ (2 ^ 54 : Int) < 2 ^ 63 := by
  refine ⟨by decide, ?_, ?_, by decide, by decide, by decide⟩
  · decide
  · decide

end TsarMLR
